import Mathlib

/-!
Verification of the BigData Mongo model-cache project (linear variant):
`predict.py`, `seed_models.py`, `server.py`.

The MongoDB collection is embedded as a list of documents; `find_one`
(filtered on `_id`), `replace_one` with `upsert=True`, and
`count_documents` are given their single-document semantics on that
list (documents are keyed by the unique `_id` field).  Python floats
are embedded as rationals, so the arithmetic of the linear prediction
is exact.
-/

set_option autoImplicit false

namespace MongoProject

/-- A stored model document: `{"_id": ..., "weights": [...], "bias": ...}`
as inserted by `seed_models.py` and read by `predict.py`. -/
structure ModelRecord where
  _id : String
  weights : List Rat
  bias : Rat
deriving DecidableEq, Repr

/-- The `models` collection: the sequence of documents it holds. -/
abbrev Collection := List ModelRecord

/-- `col.find_one({"_id": profile})`: first document whose `_id` equals
the requested profile, or `None`. -/
def find_one (col : Collection) (profile : String) : Option ModelRecord :=
  col.find? (fun m => m._id == profile)

/-- `col.count_documents({})`: number of stored documents. -/
def count_documents (col : Collection) : Nat :=
  col.length

/-- `col.replace_one({"_id": m["_id"]}, m, upsert=True)`: replace the first
document with matching `_id` by `m`, or append `m` when none matches. -/
def replace_one : Collection → ModelRecord → Collection
  | [], m => [m]
  | r :: rs, m => if r._id == m._id then m :: rs else r :: replace_one rs m

/-- The message of the `ValueError` raised by `predict.py` on a missing
profile: `Perfil '<profile>' não encontrado no cache.` -/
def notFoundMsg (profile : String) : String :=
  "Perfil \x27" ++ profile ++ "\x27 não encontrado no cache."

/-- `sum(f * w for f, w in zip(features, weights))`: Python `zip` pairs up
to the shorter list and `sum` folds from the left starting at `0`. -/
def zipProductSum (features weights : List Rat) : Rat :=
  (features.zip weights).foldl (fun acc fw => acc + fw.1 * fw.2) 0

/-- `predict(features, profile)` from `predict.py`: fetch the document for
`profile`; raise `ValueError` when absent; otherwise return
`sum(f * w for f, w in zip(features, weights)) + bias`. -/
def predict (col : Collection) (features : List Rat) (profile : String) :
    Except String Rat :=
  match find_one col profile with
  | none => Except.error (notFoundMsg profile)
  | some model => Except.ok (zipProductSum features model.weights + model.bias)

/-- The `models` list of `seed_models.py`: the two default documents. -/
def models : List ModelRecord :=
  [ { _id := "novato", weights := [1/10, 2/10, 3/10], bias := 1/2 },
    { _id := "premium", weights := [4/10, 5/10, 6/10], bias := 1 } ]

/-- The seeding loop of `seed_models.py`: one `replace_one ... upsert=True`
call per default model, unconditionally.  Returns the number of upsert
calls performed together with the resulting collection state. -/
def seed_models (col : Collection) : Nat × Collection :=
  models.foldl (fun acc m => (acc.1 + 1, replace_one acc.2 m)) (0, col)

/-- Number of upsert (`replace_one`) calls the seeding script performs. -/
def seed_upserts (col : Collection) : Nat :=
  (seed_models col).1

/-- Collection state after running the seeding script. -/
def seed_result (col : Collection) : Collection :=
  (seed_models col).2

/-- The request body model of `server.py` (`class Request(BaseModel)`). -/
structure Request where
  profile : String
  features : List Rat
deriving DecidableEq, Repr

/-- The outcome of an HTTP handler: a JSON success body
`{"profile": ..., "prediction": ...}` or an `HTTPException`. -/
inductive Response where
  | json (profile : String) (prediction : Rat)
  | httpException (status_code : Nat) (detail : String)
deriving DecidableEq, Repr

/-- `api_predict` from `server.py`: call `predict`; on success return
`{"profile": req.profile, "prediction": value}`; on `ValueError e`
raise `HTTPException(status_code=404, detail=str(e))`. -/
def api_predict (col : Collection) (req : Request) : Response :=
  match predict col req.features req.profile with
  | Except.ok value => Response.json req.profile value
  | Except.error e => Response.httpException 404 e

/-- HTTP method of a registered route. -/
inductive Method where
  | GET
  | POST
deriving DecidableEq, Repr

/-- The routes registered on the FastAPI `app` in `server.py`: only
`@app.post("/predict")` is declared. -/
def app_routes : List (Method × String) :=
  [(Method.POST, "/predict")]

/-- Store operations the code can issue against the collection. -/
inductive StoreOp where
  | findOne (profile : String)
  | replaceOne (m : ModelRecord)
deriving DecidableEq, Repr

/-- Effect of one store operation on the collection state: `find_one` is
a pure read, `replace_one` upserts. -/
def applyOp (col : Collection) : StoreOp → Collection
  | StoreOp.findOne _ => col
  | StoreOp.replaceOne m => replace_one col m

/-- Run a sequence of store operations from a collection state. -/
def runOps (col : Collection) (ops : List StoreOp) : Collection :=
  ops.foldl applyOp col

/-- The trace of collection operations issued by one `predict` call:
exactly the single `col.find_one({"_id": profile})` read. -/
def predict_store_ops (_features : List Rat) (profile : String) : List StoreOp :=
  [StoreOp.findOne profile]

/-! ### Helper lemmas about the collection operations -/

theorem replace_one_idem (col : Collection) (m : ModelRecord) :
    replace_one (replace_one col m) m = replace_one col m := by
  induction col with
  | nil => simp [replace_one]
  | cons r rs ih =>
    by_cases h : r._id = m._id
    · simp [replace_one, h]
    · simp [replace_one, h, ih]

theorem find_one_replace_one_self (col : Collection) (m : ModelRecord) :
    find_one (replace_one col m) m._id = some m := by
  induction col with
  | nil => simp [replace_one, find_one, List.find?]
  | cons r rs ih =>
    by_cases h : r._id = m._id
    · simp [replace_one, find_one, List.find?, h]
    · simp only [replace_one, if_neg (by simpa using h)]
      simpa [find_one, List.find?, h] using ih

theorem find_one_replace_one_ne (col : Collection) (m : ModelRecord) (k : String)
    (h : k ≠ m._id) : find_one (replace_one col m) k = find_one col k := by
  have hmk : (m._id == k) = false := by
    simpa using fun e => h e.symm
  induction col with
  | nil => simp [replace_one, find_one, List.find?, hmk]
  | cons r rs ih =>
    by_cases hr : r._id = m._id
    · have hrk : (r._id == k) = false := by
        simpa using fun e => h (hr.symm.trans e).symm
      simp [replace_one, find_one, List.find?, hr, hrk, hmk]
    · simp only [find_one] at ih
      cases hc : (r._id == k) <;>
        simp [replace_one, find_one, List.find?, hr, hc, ih]

theorem zipProductSum_foldl_init (l : List (Rat × Rat)) (a : Rat) :
    l.foldl (fun acc fw => acc + fw.1 * fw.2) a
      = a + l.foldl (fun acc fw => acc + fw.1 * fw.2) 0 := by
  induction l generalizing a with
  | nil => simp
  | cons p l ih =>
    simp only [List.foldl_cons]
    rw [ih (a + p.1 * p.2), ih (0 + p.1 * p.2)]
    ring

theorem zipProductSum_nil (w : List Rat) : zipProductSum [] w = 0 := rfl

theorem zipProductSum_cons (a b : Rat) (f w : List Rat) :
    zipProductSum (a :: f) (b :: w) = a * b + zipProductSum f w := by
  simp only [zipProductSum, List.zip_cons_cons, List.foldl_cons]
  rw [zipProductSum_foldl_init]
  ring

theorem zipProductSum_eq_sum_range (f w : List Rat) :
    zipProductSum f w
      = ∑ i in Finset.range (min f.length w.length), f.getD i 0 * w.getD i 0 := by
  induction f generalizing w with
  | nil => simp [zipProductSum]
  | cons a f ih =>
    cases w with
    | nil => simp [zipProductSum]
    | cons b w =>
      rw [zipProductSum_cons, ih]
      have hmin : min (a :: f).length (b :: w).length = min f.length w.length + 1 := by
        simp [List.length_cons, Nat.succ_min_succ]
      rw [hmin, Finset.sum_range_succ']
      simp only [List.getD_cons_succ, List.getD_cons_zero]
      ring

theorem seed_models_eq (col : Collection) :
    seed_models col
      = (2, replace_one (replace_one col
          { _id := "novato", weights := [1/10, 2/10, 3/10], bias := 1/2 })
          { _id := "premium", weights := [4/10, 5/10, 6/10], bias := 1 }) := rfl

/-! ### Claims -/

/-- C7: calling `replace_one ... upsert=True` twice with identical data is
idempotent: the operation is total (no error on either the insert or the
overwrite path), the second call leaves the collection state — hence
`count_documents` and every `find_one` result — unchanged. -/
theorem upsert_idempotent (col : Collection) (m : ModelRecord) :
    replace_one (replace_one col m) m = replace_one col m ∧
    count_documents (replace_one (replace_one col m) m)
      = count_documents (replace_one col m) ∧
    ∀ k, find_one (replace_one (replace_one col m) m) k
      = find_one (replace_one col m) k := by
  refine ⟨replace_one_idem col m, ?_, ?_⟩ <;> simp [replace_one_idem col m]

/-- C8: inserting a record via upsert (`replace_one ... upsert=True`) and
fetching it back via `find_one` with the same `profile_id` returns the
record with exactly the inserted fields (round-trip fidelity). -/
theorem upsert_get_roundtrip (col : Collection) (profile_id : String)
    (weights : List Rat) (bias : Rat) :
    find_one (replace_one col
        { _id := profile_id, weights := weights, bias := bias }) profile_id
      = some { _id := profile_id, weights := weights, bias := bias } :=
  find_one_replace_one_self col _

/-- C9: a `predict` call issues exactly one store operation — the
`find_one` read — and running its operation trace leaves the collection
state unchanged: the Predictor is a pure read-then-compute with no side
effects on the Model Store. -/
theorem predict_no_side_effects (col : Collection) (features : List Rat)
    (profile : String) :
    runOps col (predict_store_ops features profile) = col ∧
    predict_store_ops features profile = [StoreOp.findOne profile] :=
  ⟨rfl, rfl⟩

/-- C2: when the stored record for the profile exists and the feature list
has the same length as its weights, `predict` returns the element-wise
product sum of features and weights plus the bias — a plain linear
combination, no normalization and no activation. -/
theorem predict_linear_combination (col : Collection) (features : List Rat)
    (profile : String) (m : ModelRecord)
    (hfind : find_one col profile = some m)
    (hlen : features.length = m.weights.length) :
    predict col features profile
      = Except.ok ((∑ i in Finset.range features.length,
          features.getD i 0 * m.weights.getD i 0) + m.bias) := by
  simp only [predict, hfind]
  rw [zipProductSum_eq_sum_range, hlen, min_self]

/-- C2 witness: on the seeded store, `predict [1,2,3] "novato"` with stored
weights `[0.1,0.2,0.3]` and bias `0.5` yields exactly `1.9`. -/
theorem predict_linear_combination_witness :
    predict models [1, 2, 3] "novato" = Except.ok (19/10) := by
  have h := predict_linear_combination models [1, 2, 3] "novato"
    { _id := "novato", weights := [1/10, 2/10, 3/10], bias := 1/2 }
    (by simp [find_one, models, List.find?]) (by simp)
  rw [h]
  norm_num [Finset.sum_range_succ]

/-- C10: whenever the profile is found, `predict` succeeds for a feature
list of any length and returns the sum of pairwise products over the
first `min (len features) (len weights)` positions plus the bias; with an
empty feature list it returns exactly the stored bias. -/
theorem predict_zip_truncates (col : Collection) (features : List Rat)
    (profile : String) (m : ModelRecord)
    (hfind : find_one col profile = some m) :
    predict col features profile
      = Except.ok ((∑ i in Finset.range (min features.length m.weights.length),
          features.getD i 0 * m.weights.getD i 0) + m.bias) ∧
    predict col [] profile = Except.ok m.bias := by
  constructor
  · simp only [predict, hfind]
    rw [zipProductSum_eq_sum_range]
  · simp [predict, hfind, zipProductSum_nil]

/-- C10 witness: against stored weights of length 3, `predict` with the
length-2 feature list `[1, 2]` succeeds with `1*0.1 + 2*0.2 + 0.5 = 1`,
and with the empty feature list returns the bias `0.5`. -/
theorem predict_zip_truncates_witness :
    predict models [1, 2] "novato" = Except.ok 1 ∧
    predict models [] "novato" = Except.ok (1/2) := by
  have h := predict_zip_truncates models [1, 2] "novato"
    { _id := "novato", weights := [1/10, 2/10, 3/10], bias := 1/2 }
    (by simp [find_one, models, List.find?])
  refine ⟨?_, h.2⟩
  rw [h.1]
  norm_num [Finset.sum_range_succ]

/-- C4: when no record matches the requested profile, `predict` fails with
the `ValueError` whose message carries the requested id (the message
decomposes around the id). -/
theorem predict_profile_not_found (col : Collection) (features : List Rat)
    (profile : String) (hfind : find_one col profile = none) :
    predict col features profile = Except.error (notFoundMsg profile) ∧
    ∃ pre post, notFoundMsg profile = pre ++ (profile ++ post) := by
  refine ⟨by simp [predict, hfind],
    ⟨"Perfil \x27", "\x27 não encontrado no cache.", ?_⟩⟩
  simp [notFoundMsg, String.append_assoc]

/-- C4 witness: predicting for the unknown profile `"ghost"` against the
seeded store fails with the not-found error carrying `"ghost"`. -/
theorem predict_profile_not_found_witness :
    predict models [1, 2, 3] "ghost" = Except.error (notFoundMsg "ghost") ∧
    ∃ pre post, notFoundMsg "ghost" = pre ++ ("ghost" ++ post) :=
  predict_profile_not_found models [1, 2, 3] "ghost"
    (by simp [find_one, models, List.find?])

/-- C5: for every request body, `api_predict` returns the JSON body
`{profile, prediction}` echoing the requested profile when a record
matches, and an `HTTPException` with status 404 whose detail message
names the requested profile when none matches. -/
theorem api_predict_contract (col : Collection) (req : Request) :
    ((∃ m, find_one col req.profile = some m) →
      ∃ v, api_predict col req = Response.json req.profile v) ∧
    (find_one col req.profile = none →
      api_predict col req
        = Response.httpException 404 (notFoundMsg req.profile) ∧
      ∃ pre post, notFoundMsg req.profile = pre ++ (req.profile ++ post)) := by
  constructor
  · rintro ⟨m, hm⟩
    exact ⟨zipProductSum req.features m.weights + m.bias,
      by simp [api_predict, predict, hm]⟩
  · intro hn
    refine ⟨by simp [api_predict, predict, hn],
      ⟨"Perfil \x27", "\x27 não encontrado no cache.", ?_⟩⟩
    simp [notFoundMsg, String.append_assoc]

/-- C5 witness: on the seeded store, `POST /predict` for `"premium"`
returns a JSON body echoing `"premium"`, and for the unknown `"ghost"`
returns a 404 `HTTPException` whose detail carries `"ghost"`. -/
theorem api_predict_contract_witness :
    (∃ v, api_predict models { profile := "premium", features := [1, 1, 1] }
        = Response.json "premium" v) ∧
    api_predict models { profile := "ghost", features := [1, 2, 3] }
      = Response.httpException 404 (notFoundMsg "ghost") := by
  constructor
  · exact (api_predict_contract models _).1
      ⟨{ _id := "premium", weights := [4/10, 5/10, 6/10], bias := 1 },
        by simp [find_one, models, List.find?]⟩
  · exact ((api_predict_contract models _).2
      (by simp [find_one, models, List.find?])).1

/-- C1 counterexample: `predict` called with features of length 2 against
the stored `"novato"` weights of length 3 does not fail at all — it
returns the value `1` (Python `zip` silently drops the unmatched weight),
refuting that a `FeatureLengthMismatch` error is raised. -/
theorem predict_length_mismatch_counterexample :
    predict models [1, 2] "novato" = Except.ok 1 := by
  simp [predict, find_one, models, List.find?, zipProductSum, List.zip]
  norm_num

/-- C1 amended: `predict` performs no feature-length validation: whenever
the profile is found, it returns a value even when the feature length
differs from the stored weights length — the mismatch is silently
coerced by `zip` truncation, never surfaced as an error. -/
theorem predict_never_length_error (col : Collection) (features : List Rat)
    (profile : String) (m : ModelRecord)
    (hfind : find_one col profile = some m)
    (_hlen : features.length ≠ m.weights.length) :
    ∃ v, predict col features profile = Except.ok v :=
  ⟨zipProductSum features m.weights + m.bias, by simp [predict, hfind]⟩

/-- C1 amended witness: features `[1, 2]` against the stored length-3
`"novato"` weights succeed with a value instead of erroring. -/
theorem predict_never_length_error_witness :
    ∃ v, predict models [1, 2] "novato" = Except.ok v :=
  predict_never_length_error models [1, 2] "novato"
    { _id := "novato", weights := [1/10, 2/10, 3/10], bias := 1/2 }
    (by simp [find_one, models, List.find?]) (by norm_num)

/-- C3 counterexample: against a populated store (one document, so
`count > 0`), the seeding script still performs 2 upsert calls and
overwrites the stored `"novato"` record with the default one. -/
theorem seeder_overwrites_counterexample :
    0 < count_documents [{ _id := "novato", weights := [9], bias := 7 }] ∧
    seed_upserts [{ _id := "novato", weights := [9], bias := 7 }] = 2 ∧
    find_one (seed_result [{ _id := "novato", weights := [9], bias := 7 }])
        "novato"
      ≠ find_one [{ _id := "novato", weights := [9], bias := 7 }] "novato" := by
  refine ⟨by simp [count_documents], rfl, ?_⟩
  simp [seed_result, seed_models, models, replace_one, find_one, List.find?]

/-- C3 amended: the seeding script never checks `count()`: it performs
exactly 2 upsert calls on every invocation, whatever the store holds,
replacing any records with ids `"novato"`/`"premium"` by the defaults;
records under any other id are left unchanged. -/
theorem seed_always_upserts (col : Collection) :
    seed_upserts col = 2 ∧
    ∀ k, k ≠ "novato" → k ≠ "premium" →
      find_one (seed_result col) k = find_one col k := by
  refine ⟨rfl, ?_⟩
  intro k h1 h2
  simp only [seed_result, seed_models_eq col]
  rw [find_one_replace_one_ne _ _ _ h2, find_one_replace_one_ne _ _ _ h1]

/-- C3 amended witness: on a store holding only a `"ghost"` record the
seeder performs 2 upserts and leaves the `"ghost"` record unchanged. -/
theorem seed_always_upserts_witness :
    seed_upserts [{ _id := "ghost", weights := [1], bias := 0 }] = 2 ∧
    find_one (seed_result [{ _id := "ghost", weights := [1], bias := 0 }])
        "ghost"
      = find_one [{ _id := "ghost", weights := [1], bias := 0 }] "ghost" :=
  ⟨(seed_always_upserts _).1,
   (seed_always_upserts _).2 "ghost" (by decide) (by decide)⟩

/-- C6 counterexample: the FastAPI app of `server.py` registers no
`GET /` route at all, refuting that the HTTP surface exposes a
`GET /` liveness check. -/
theorem get_root_route_counterexample :
    (Method.GET, "/") ∉ app_routes := by
  decide

/-- C6 amended: the HTTP surface consists of the single route
`POST /predict`; no `GET /` liveness route is exposed. -/
theorem app_routes_only_post_predict :
    app_routes = [(Method.POST, "/predict")] ∧
    (Method.GET, "/") ∉ app_routes :=
  ⟨rfl, by decide⟩

end MongoProject
